import Mathlib

/-!
Verification of the provider-validation pipeline of an OAuth2 proxy
(`pkg/validation/providers.go`).

The Go code is embedded shallowly:

* the `options` structures are reconstructed from the field accesses in
  `providers.go` (`Provider.ID`, `Provider.ClientID`, `Provider.Type`,
  `Provider.AuthenticationConfig.Method`, `Provider.GoogleConfig.*`,
  `Provider.MicrosoftEntraIDConfig.FederatedTokenAuth`,
  `Options.Providers`, `Options.SkipProviderButton`);
* the external world (filesystem and environment) is a record `Sys` of
  read-only probes: `statOk p` holds iff `os.Stat p` returns a nil error,
  `readOk p` holds iff `os.ReadFile p` returns a nil error, and
  `azureFederatedTokenFile` is `os.Getenv "AZURE_FEDERATED_TOKEN_FILE"`;
* the Go `map[string]struct{}` registry of seen provider ids is a
  `List String` observed only through `contains`; the unconditional map
  insert `providerIDs[provider.ID] = struct{}{}` becomes a cons, which has
  the same membership semantics;
* every validator returns its `[]string` of problem messages; the loop of
  `validateProviders` is an explicit structural recursion threading the
  registry.
-/

namespace OAuth2Proxy

/-- The sub-record `provider.AuthenticationConfig`: carries the
authentication method tag. -/
structure AuthenticationOptions where
  Method : String
deriving DecidableEq

/-- The sub-record `provider.GoogleConfig` with exactly the fields read by
`validateGoogleConfig`. -/
structure GoogleOptions where
  Groups : List String
  AdminEmail : String
  ServiceAccountJSON : String
  UseApplicationDefaultCredentials : Bool
deriving DecidableEq

/-- The sub-record `provider.MicrosoftEntraIDConfig` with the one field read
by `validateEntraConfig`. -/
structure MicrosoftEntraIDOptions where
  FederatedTokenAuth : Bool
deriving DecidableEq

/-- `options.Provider`, restricted to the fields `providers.go` reads.
Go's `Type` field is `typ` here because `Type` is a Lean keyword. -/
structure Provider where
  ID : String
  typ : String
  ClientID : String
  AuthenticationConfig : AuthenticationOptions
  GoogleConfig : GoogleOptions
  MicrosoftEntraIDConfig : MicrosoftEntraIDOptions
deriving DecidableEq

/-- `options.Options`, restricted to the fields `validateProviders` reads. -/
structure Options where
  Providers : List Provider
  SkipProviderButton : Bool
deriving DecidableEq

/-- The external world as seen by the validators: pure read-only probes for
`os.Stat`, `os.ReadFile` and the one environment variable read. -/
structure Sys where
  statOk : String → Bool
  readOk : String → Bool
  azureFederatedTokenFile : String

/-- Modelled from the spec: the constant `options.PrivateKeyJWT`, whose
declaration is outside `providers.go`; the spec calls the method
"private-key-JWT" and only its distinguishedness matters. -/
def PrivateKeyJWT : String := "private-key-JWT"

/-! ### The problem-message strings of `providers.go` -/

def emptyProvidersMsg : String := "at least one provider has to be defined"

def skipButtonMsg : String :=
  "SkipProviderButton and multiple providers are mutually exclusive"

def emptyIDMsg : String := "provider has empty id: ids are required for all providers"

/-- `fmt.Sprintf("multiple providers found with id %s: provider ids must be unique", provider.ID)` -/
def dupIDMsg (id : String) : String :=
  "multiple providers found with id " ++ id ++ ": provider ids must be unique"

def clientIDMsg : String := "provider missing setting: client-id"

def missingGroupMsg : String := "missing setting: google-group"

def missingAdminEmailMsg : String := "missing setting: google-admin-email"

def missingCredMsg : String :=
  "missing setting: google-service-account-json or google-use-application-default-credentials"

/-- `fmt.Sprintf("Google credentials file not found: %s", provider.GoogleConfig.ServiceAccountJSON)` -/
def credNotFoundMsg (path : String) : String :=
  "Google credentials file not found: " ++ path

def bothCredMsg : String :=
  "invalid setting: can't use both google-service-account-json and google-use-application-default-credentials"

def entraEnvMsg : String :=
  "entra federated token authentication is enabled, but AZURE_FEDERATED_TOKEN_FILE variable is not set, check your workload identity configuration."

def entraReadMsg : String := "could not read entra federated token file"

def govJwtMsg : String := "login.gov configuration not using private key jwt"

/-! ### The validators -/

/-- Modelled from the spec: the body of `validateAuthenticationConfig` is not
part of `providers.go` (only its call site
`validateAuthenticationConfig(provider.AuthenticationConfig)` is).  Per the
spec's §4.3 the rule is conditional on the provider's type: only the
government-identity type ("login.gov") requires `Method = PrivateKeyJWT`,
emitting the same-shaped message as `validateGovLoginConfig`; for every other
type it emits nothing.  Because the spec makes the rule type-aware, the model
takes the provider's type tag alongside the sub-record the Go call passes. -/
def validateAuthenticationConfig (typ : String) (cfg : AuthenticationOptions) :
    List String :=
  if typ = "login.gov" ∧ cfg.Method ≠ PrivateKeyJWT then [govJwtMsg] else []

/-- `validateGoogleConfig` of `providers.go`.  The `os.Stat` probe is read
unconditionally, as in the source, and its result only consulted in the
`!useADC && hasSAJSON` branch. -/
def validateGoogleConfig (sys : Sys) (provider : Provider) : List String :=
  let hasGoogleGroups := 1 ≤ provider.GoogleConfig.Groups.length
  let hasAdminEmail := provider.GoogleConfig.AdminEmail ≠ ""
  let hasSAJSON := provider.GoogleConfig.ServiceAccountJSON ≠ ""
  let useADC := provider.GoogleConfig.UseApplicationDefaultCredentials
  if ¬hasGoogleGroups ∧ ¬hasAdminEmail ∧ ¬hasSAJSON ∧ useADC = false then []
  else
    (if ¬hasGoogleGroups then [missingGroupMsg] else [])
    ++ (if ¬hasAdminEmail then [missingAdminEmailMsg] else [])
    ++ (let statErr := sys.statOk provider.GoogleConfig.ServiceAccountJSON = false
        if useADC = false then
          if ¬hasSAJSON then [missingCredMsg]
          else if statErr then
            [credNotFoundMsg provider.GoogleConfig.ServiceAccountJSON]
          else []
        else if hasSAJSON then [bothCredMsg] else [])

/-- `validateEntraConfig` of `providers.go`: the early `return msgs` after
the empty-environment-variable message means `os.ReadFile` is only attempted
when the variable is non-empty. -/
def validateEntraConfig (sys : Sys) (provider : Provider) : List String :=
  if provider.MicrosoftEntraIDConfig.FederatedTokenAuth then
    let federatedTokenPath := sys.azureFederatedTokenFile
    if federatedTokenPath = "" then [entraEnvMsg]
    else if sys.readOk federatedTokenPath = false then [entraReadMsg]
    else []
  else []

/-- `validateGovLoginConfig` of `providers.go` (the redundant `Type` check of
the source is kept). -/
def validateGovLoginConfig (provider : Provider) : List String :=
  if provider.typ = "login.gov" ∧ provider.AuthenticationConfig.Method ≠ PrivateKeyJWT
  then [govJwtMsg] else []

/-- The message list built by `validateProvider` of `providers.go`: the
appends happen in exactly the source's order. -/
def validateProviderMsgs (sys : Sys) (provider : Provider)
    (providerIDs : List String) : List String :=
  (if provider.ID = "" then [emptyIDMsg] else [])
  ++ (if providerIDs.contains provider.ID then [dupIDMsg provider.ID] else [])
  ++ (if provider.ClientID = "" then [clientIDMsg] else [])
  ++ validateAuthenticationConfig provider.typ provider.AuthenticationConfig
  ++ (if provider.typ = "google" then validateGoogleConfig sys provider else [])
  ++ (if provider.typ = "entra-id" then validateEntraConfig sys provider else [])
  ++ (if provider.typ = "login.gov" then validateGovLoginConfig provider else [])

/-- `validateProvider` of `providers.go`: returns its messages together with
the registry after the unconditional insert of `provider.ID` (the membership
test for the duplicate message happens before the insert). -/
def validateProvider (sys : Sys) (provider : Provider)
    (providerIDs : List String) : List String × List String :=
  (validateProviderMsgs sys provider providerIDs, provider.ID :: providerIDs)

/-- The `for _, provider := range o.Providers` loop of `validateProviders`,
threading the id registry left to right. -/
def validateProvidersLoop (sys : Sys) (providers : List Provider)
    (providerIDs : List String) : List String :=
  match providers with
  | [] => []
  | provider :: rest =>
      (validateProvider sys provider providerIDs).1
      ++ validateProvidersLoop sys rest (validateProvider sys provider providerIDs).2

/-- `validateProviders` of `providers.go`. -/
def validateProviders (sys : Sys) (o : Options) : List String :=
  (if o.Providers.length = 0 then [emptyProvidersMsg] else [])
  ++ (if o.SkipProviderButton = true ∧ 1 < o.Providers.length then [skipButtonMsg] else [])
  ++ validateProvidersLoop sys o.Providers []

/-! ### Sanity checks on concrete inputs -/

/-- A world with no files and no environment variable. -/
def sysNone : Sys where
  statOk := fun _ => false
  readOk := fun _ => false
  azureFederatedTokenFile := ""

/-- A provider with every field blank. -/
def blankProvider : Provider where
  ID := ""
  typ := ""
  ClientID := ""
  AuthenticationConfig := ⟨""⟩
  GoogleConfig := ⟨[], "", "", false⟩
  MicrosoftEntraIDConfig := ⟨false⟩

/-- The end-to-end scenario of the spec's §8: one "google" provider with only
`AdminEmail` set. -/
def googleAdminOnly : Provider where
  ID := "a"
  typ := "google"
  ClientID := "x"
  AuthenticationConfig := ⟨""⟩
  GoogleConfig := ⟨[], "e@x.com", "", false⟩
  MicrosoftEntraIDConfig := ⟨false⟩

example :
    validateProviders sysNone ⟨[], false⟩ = [emptyProvidersMsg] := by decide

example :
    validateProviders sysNone ⟨[googleAdminOnly], false⟩
      = [missingGroupMsg, missingCredMsg] := by decide

/-! ### Distinguishing the message strings

All fixed messages, the formatted duplicate-id message (for any id) and the
formatted credentials-not-found message (for any path) are pairwise distinct;
the first two characters of the string already separate the variable-content
families from everything else. -/

theorem ne_of_take2 {a b : String} (h : a.data.take 2 ≠ b.data.take 2) :
    a ≠ b :=
  fun he => h (by rw [he])

theorem take2_append (p x : String) (h : 2 ≤ p.data.length) :
    (p ++ x).data.take 2 = p.data.take 2 := by
  rw [String.data_append, List.take_append_eq_append_take,
    Nat.sub_eq_zero_of_le h, List.take_zero, List.append_nil]

theorem dupIDMsg_take2 (id : String) :
    (dupIDMsg id).data.take 2 = ['m', 'u'] := by
  have h1 : 2 ≤ ("multiple providers found with id " ++ id).data.length := by
    rw [String.data_append, List.length_append]
    have h2 : 2 ≤ "multiple providers found with id ".data.length := by decide
    omega
  unfold dupIDMsg
  rw [take2_append _ _ h1, take2_append _ _ (by decide)]
  decide

theorem credNotFoundMsg_take2 (path : String) :
    (credNotFoundMsg path).data.take 2 = ['G', 'o'] := by
  unfold credNotFoundMsg
  rw [take2_append _ _ (by decide)]
  decide

theorem dupIDMsg_ne (id m : String) (hm : m.data.take 2 ≠ ['m', 'u']) :
    dupIDMsg id ≠ m :=
  ne_of_take2 (by rw [dupIDMsg_take2]; exact fun h => hm h.symm)

theorem credNotFoundMsg_ne (path m : String) (hm : m.data.take 2 ≠ ['G', 'o']) :
    credNotFoundMsg path ≠ m :=
  ne_of_take2 (by rw [credNotFoundMsg_take2]; exact fun h => hm h.symm)

theorem dupIDMsg_inj {a b : String} (h : dupIDMsg a = dupIDMsg b) : a = b := by
  unfold dupIDMsg at h
  have h' := congrArg String.data h
  simp only [String.data_append] at h'
  exact String.ext (List.append_cancel_left (List.append_cancel_right h'))

/-! ### What each validator can emit -/

theorem mem_ite_singleton {α : Type} {c : Prop} [Decidable c] {x m : α}
    (h : m ∈ if c then [x] else []) : m = x := by
  split at h
  · simpa using h
  · simp at h

theorem mem_validateAuthenticationConfig {typ : String}
    {cfg : AuthenticationOptions} {m : String}
    (h : m ∈ validateAuthenticationConfig typ cfg) : m = govJwtMsg := by
  unfold validateAuthenticationConfig at h
  exact mem_ite_singleton h

theorem mem_validateGovLoginConfig {p : Provider} {m : String}
    (h : m ∈ validateGovLoginConfig p) : m = govJwtMsg := by
  unfold validateGovLoginConfig at h
  exact mem_ite_singleton h

theorem mem_validateEntraConfig {sys : Sys} {p : Provider} {m : String}
    (h : m ∈ validateEntraConfig sys p) : m = entraEnvMsg ∨ m = entraReadMsg := by
  simp only [validateEntraConfig] at h
  split at h
  · split at h
    · exact Or.inl (by simpa using h)
    · split at h
      · exact Or.inr (by simpa using h)
      · simp at h
  · simp at h

theorem mem_validateGoogleConfig {sys : Sys} {p : Provider} {m : String}
    (h : m ∈ validateGoogleConfig sys p) :
    m = missingGroupMsg ∨ m = missingAdminEmailMsg ∨ m = missingCredMsg
    ∨ m = credNotFoundMsg p.GoogleConfig.ServiceAccountJSON ∨ m = bothCredMsg := by
  simp only [validateGoogleConfig] at h
  split at h
  · simp at h
  · simp only [List.mem_append] at h
    rcases h with (h | h) | h
    · exact Or.inl (mem_ite_singleton h)
    · exact Or.inr (Or.inl (mem_ite_singleton h))
    · split at h
      · split at h
        · exact Or.inr (Or.inr (Or.inl (by simpa using h)))
        · split at h
          · exact Or.inr (Or.inr (Or.inr (Or.inl (by simpa using h))))
          · simp at h
      · split at h
        · exact Or.inr (Or.inr (Or.inr (Or.inr (by simpa using h))))
        · simp at h

theorem mem_ite_nil {α : Type} {c : Prop} [Decidable c] {l : List α} {m : α}
    (h : m ∈ if c then l else []) : m ∈ l := by
  split at h
  · exact h
  · simp at h

/-- A list whose members all start otherwise cannot contain a duplicate-id
message. -/
theorem count_dup_eq_zero {l : List String} (id : String)
    (h : ∀ m ∈ l, m.data.take 2 ≠ ['m', 'u']) : l.count (dupIDMsg id) = 0 :=
  List.count_eq_zero.mpr fun hm => h _ hm (dupIDMsg_take2 id)

/-- Everything `validateProviderMsgs` emits apart from the duplicate-id slot
starts with two characters other than "mu". -/
theorem take2_ne_mu_of_mem_rest (sys : Sys) (p : Provider) :
    (∀ m ∈ validateAuthenticationConfig p.typ p.AuthenticationConfig,
        m.data.take 2 ≠ ['m', 'u'])
    ∧ (∀ m ∈ validateGoogleConfig sys p, m.data.take 2 ≠ ['m', 'u'])
    ∧ (∀ m ∈ validateEntraConfig sys p, m.data.take 2 ≠ ['m', 'u'])
    ∧ (∀ m ∈ validateGovLoginConfig p, m.data.take 2 ≠ ['m', 'u']) := by
  refine ⟨fun m hm => ?_, fun m hm => ?_, fun m hm => ?_, fun m hm => ?_⟩
  · rw [mem_validateAuthenticationConfig hm]; decide
  · rcases mem_validateGoogleConfig hm with h | h | h | h | h <;> subst h
    · decide
    · decide
    · decide
    · rw [credNotFoundMsg_take2]; decide
    · decide
  · rcases mem_validateEntraConfig hm with h | h <;> subst h
    · decide
    · decide
  · rw [mem_validateGovLoginConfig hm]; decide

/-- Count of the duplicate-id message for `id` in one provider's messages:
one exactly when this provider has id `id` and `id` was already registered. -/
theorem count_dup_validateProviderMsgs (sys : Sys) (p : Provider)
    (ids : List String) (id : String) :
    (validateProviderMsgs sys p ids).count (dupIDMsg id)
      = if p.ID = id ∧ ids.contains id = true then 1 else 0 := by
  obtain ⟨ha, hg, he, hl⟩ := take2_ne_mu_of_mem_rest sys p
  have h1 : (if p.ID = "" then [emptyIDMsg] else []).count (dupIDMsg id) = 0 :=
    count_dup_eq_zero id (fun m hm => by rw [mem_ite_singleton hm]; decide)
  have h3 : (if p.ClientID = "" then [clientIDMsg] else []).count (dupIDMsg id) = 0 :=
    count_dup_eq_zero id (fun m hm => by rw [mem_ite_singleton hm]; decide)
  have h4 : (validateAuthenticationConfig p.typ p.AuthenticationConfig).count
      (dupIDMsg id) = 0 := count_dup_eq_zero id ha
  have h5 : (if p.typ = "google" then validateGoogleConfig sys p else []).count
      (dupIDMsg id) = 0 :=
    count_dup_eq_zero id (fun m hm => hg m (mem_ite_nil hm))
  have h6 : (if p.typ = "entra-id" then validateEntraConfig sys p else []).count
      (dupIDMsg id) = 0 :=
    count_dup_eq_zero id (fun m hm => he m (mem_ite_nil hm))
  have h7 : (if p.typ = "login.gov" then validateGovLoginConfig p else []).count
      (dupIDMsg id) = 0 :=
    count_dup_eq_zero id (fun m hm => hl m (mem_ite_nil hm))
  have hslot : (if ids.contains p.ID then [dupIDMsg p.ID] else []).count
      (dupIDMsg id) = if p.ID = id ∧ ids.contains id = true then 1 else 0 := by
    by_cases hid : p.ID = id
    · subst hid
      by_cases hc : ids.contains p.ID = true
      · rw [if_pos hc, if_pos ⟨rfl, hc⟩, List.count_cons, List.count_nil]
        simp
      · rw [if_neg hc, if_neg (fun h => hc h.2), List.count_nil]
    · have hr : (if p.ID = id ∧ ids.contains id = true then (1 : Nat) else 0) = 0 :=
        if_neg (fun h => hid h.1)
      rw [hr]
      split
      · rw [List.count_cons, List.count_nil, Nat.zero_add, if_neg]
        simp only [beq_iff_eq]
        exact fun hco => hid (dupIDMsg_inj hco)
      · exact List.count_nil _
  unfold validateProviderMsgs
  simp only [List.count_append]
  rw [h1, h3, h4, h5, h6, h7, hslot]
  omega

/-- Count of the duplicate-id message for `id` emitted by the provider loop,
as a function of the incoming registry. -/
theorem count_dup_validateProvidersLoop (sys : Sys) (id : String)
    (ps : List Provider) :
    ∀ ids : List String,
      (validateProvidersLoop sys ps ids).count (dupIDMsg id)
        = if ids.contains id = true then ps.countP (fun p => p.ID == id)
          else ps.countP (fun p => p.ID == id) - 1 := by
  induction ps with
  | nil =>
    intro ids
    simp only [validateProvidersLoop, List.count_nil, List.countP_nil]
    split <;> rfl
  | cons p rest ih =>
    intro ids
    simp only [validateProvidersLoop, validateProvider, List.count_append]
    rw [count_dup_validateProviderMsgs, ih (p.ID :: ids), List.countP_cons,
      List.contains_cons]
    by_cases hid : p.ID = id
    · subst hid
      rcases Bool.eq_false_or_eq_true (ids.contains p.ID) with hc | hc <;>
        simp_all <;> omega
    · have hbeq : (id == p.ID) = false := by
        rw [beq_eq_false_iff_ne]
        exact fun h => hid h.symm
      have hbeq' : (p.ID == id) = false := by
        rw [beq_eq_false_iff_ne]
        exact hid
      rw [hbeq, hbeq', if_neg (fun h => hid h.1)]
      rcases Bool.eq_false_or_eq_true (ids.contains id) with hc | hc <;>
        simp_all <;> omega

/-- The two leading characters of anything the four sub-validators emit. -/
theorem take2_of_mem_subvalidators (sys : Sys) (p : Provider) (m : String)
    (h : m ∈ validateAuthenticationConfig p.typ p.AuthenticationConfig
       ∨ m ∈ validateGoogleConfig sys p
       ∨ m ∈ validateEntraConfig sys p
       ∨ m ∈ validateGovLoginConfig p) :
    m.data.take 2 = ['l', 'o'] ∨ m.data.take 2 = ['m', 'i']
    ∨ m.data.take 2 = ['G', 'o'] ∨ m.data.take 2 = ['i', 'n']
    ∨ m.data.take 2 = ['e', 'n'] ∨ m.data.take 2 = ['c', 'o'] := by
  rcases h with h | h | h | h
  · rw [mem_validateAuthenticationConfig h]; left; decide
  · rcases mem_validateGoogleConfig h with h | h | h | h | h <;> subst h
    · right; left; decide
    · right; left; decide
    · right; left; decide
    · right; right; left; exact credNotFoundMsg_take2 _
    · right; right; right; left; decide
  · rcases mem_validateEntraConfig h with h | h <;> subst h
    · right; right; right; right; left; decide
    · right; right; right; right; right; decide
  · rw [mem_validateGovLoginConfig h]; left; decide

/-- Count of the empty-id message in one provider's messages: one exactly
when this provider's id is empty, whatever the registry holds. -/
theorem count_empty_validateProviderMsgs (sys : Sys) (p : Provider)
    (ids : List String) :
    (validateProviderMsgs sys p ids).count emptyIDMsg
      = if p.ID = "" then 1 else 0 := by
  have hsub : ∀ m, (m ∈ validateAuthenticationConfig p.typ p.AuthenticationConfig
       ∨ m ∈ validateGoogleConfig sys p ∨ m ∈ validateEntraConfig sys p
       ∨ m ∈ validateGovLoginConfig p) → m ≠ emptyIDMsg := by
    intro m hm
    rcases take2_of_mem_subvalidators sys p m hm with h | h | h | h | h | h <;>
      exact ne_of_take2 (by rw [h]; decide)
  have h1 : (if p.ID = "" then [emptyIDMsg] else []).count emptyIDMsg
      = if p.ID = "" then 1 else 0 := by
    split <;> decide
  have h2 : (if ids.contains p.ID then [dupIDMsg p.ID] else []).count emptyIDMsg
      = 0 :=
    List.count_eq_zero.mpr (fun hmem =>
      (dupIDMsg_ne p.ID emptyIDMsg (by decide)) (mem_ite_singleton hmem).symm)
  have h3 : (if p.ClientID = "" then [clientIDMsg] else []).count emptyIDMsg
      = 0 := by
    split
    · decide
    · exact List.count_nil _
  have h4 : (validateAuthenticationConfig p.typ p.AuthenticationConfig).count
      emptyIDMsg = 0 :=
    List.count_eq_zero.mpr (fun hm => hsub _ (Or.inl hm) rfl)
  have h5 : (if p.typ = "google" then validateGoogleConfig sys p else []).count
      emptyIDMsg = 0 :=
    List.count_eq_zero.mpr
      (fun hm => hsub _ (Or.inr (Or.inl (mem_ite_nil hm))) rfl)
  have h6 : (if p.typ = "entra-id" then validateEntraConfig sys p else []).count
      emptyIDMsg = 0 :=
    List.count_eq_zero.mpr
      (fun hm => hsub _ (Or.inr (Or.inr (Or.inl (mem_ite_nil hm)))) rfl)
  have h7 : (if p.typ = "login.gov" then validateGovLoginConfig p else []).count
      emptyIDMsg = 0 :=
    List.count_eq_zero.mpr
      (fun hm => hsub _ (Or.inr (Or.inr (Or.inr (mem_ite_nil hm)))) rfl)
  unfold validateProviderMsgs
  simp only [List.count_append]
  rw [h1, h2, h3, h4, h5, h6, h7]
  omega

/-- Every provider with an empty id contributes the empty-id message exactly
once to the loop's output, independently of the registry. -/
theorem count_empty_validateProvidersLoop (sys : Sys) (ps : List Provider) :
    ∀ ids : List String,
      (validateProvidersLoop sys ps ids).count emptyIDMsg
        = ps.countP (fun p => p.ID == "") := by
  induction ps with
  | nil => intro ids; rfl
  | cons p rest ih =>
    intro ids
    simp only [validateProvidersLoop, validateProvider, List.count_append]
    rw [count_empty_validateProviderMsgs, ih (p.ID :: ids), List.countP_cons]
    by_cases h : p.ID = ""
    · have hb : (p.ID == "") = true := by rw [beq_iff_eq]; exact h
      rw [if_pos h, hb, if_pos rfl]
      omega
    · have hb : (p.ID == "") = false := by rw [beq_eq_false_iff_ne]; exact h
      rw [if_neg h, hb]
      simp

theorem count_empty_validateProviders (sys : Sys) (o : Options) :
    (validateProviders sys o).count emptyIDMsg
      = o.Providers.countP (fun p => p.ID == "") := by
  have h1 : (if o.Providers.length = 0 then [emptyProvidersMsg] else []).count
      emptyIDMsg = 0 := by
    split
    · decide
    · exact List.count_nil _
  have h2 : (if o.SkipProviderButton = true ∧ 1 < o.Providers.length
      then [skipButtonMsg] else []).count emptyIDMsg = 0 := by
    split
    · decide
    · exact List.count_nil _
  unfold validateProviders
  simp only [List.count_append]
  rw [h1, h2, count_empty_validateProvidersLoop]
  omega

theorem count_dup_validateProviders (sys : Sys) (o : Options) (id : String) :
    (validateProviders sys o).count (dupIDMsg id)
      = o.Providers.countP (fun p => p.ID == id) - 1 := by
  have h1 : (if o.Providers.length = 0 then [emptyProvidersMsg] else []).count
      (dupIDMsg id) = 0 :=
    count_dup_eq_zero id (fun m hm => by rw [mem_ite_singleton hm]; decide)
  have h2 : (if o.SkipProviderButton = true ∧ 1 < o.Providers.length
      then [skipButtonMsg] else []).count (dupIDMsg id) = 0 :=
    count_dup_eq_zero id (fun m hm => by rw [mem_ite_singleton hm]; decide)
  unfold validateProviders
  simp only [List.count_append]
  rw [h1, h2, count_dup_validateProvidersLoop]
  simp

/-! ### Claim theorems on duplicate and empty ids -/

/-- C1: in any provider sequence holding k ≥ 2 providers sharing the same
non-empty id, the validation pass emits exactly k − 1 duplicate-id messages
for that id; a provider whose id is not yet registered never triggers the
duplicate-id message; and after `validateProvider` the registry always
contains the provider's id, whether or not it was already there. -/
theorem duplicate_id_messages (sys : Sys) (o : Options) (id : String)
    (hid : id ≠ "")
    (hk : 2 ≤ o.Providers.countP (fun p => p.ID == id)) :
    (validateProviders sys o).count (dupIDMsg id)
        = o.Providers.countP (fun p => p.ID == id) - 1
    ∧ (∀ p ids, p.ID = id → ids.contains id = false →
        (validateProviderMsgs sys p ids).count (dupIDMsg id) = 0)
    ∧ (∀ p ids, ((validateProvider sys p ids).2).contains p.ID = true) := by
  refine ⟨count_dup_validateProviders sys o id, fun p ids hp hc => ?_,
    fun p ids => ?_⟩
  · rw [count_dup_validateProviderMsgs, hc, if_neg]
    exact fun h => Bool.false_ne_true h.2
  · simp [validateProvider, List.contains_cons]

/-- One fully-identified provider of no special type. -/
def provA : Provider where
  ID := "a"
  typ := ""
  ClientID := "x"
  AuthenticationConfig := ⟨""⟩
  GoogleConfig := ⟨[], "", "", false⟩
  MicrosoftEntraIDConfig := ⟨false⟩

def optsDup : Options := ⟨[provA, provA, provA], false⟩

theorem duplicate_id_messages_witness :
    (validateProviders sysNone optsDup).count (dupIDMsg "a") = 2 :=
  ((duplicate_id_messages sysNone optsDup "a" (by decide) (by decide)).1).trans
    (by decide)

/-- C10: when two or more providers have the empty id, each of them receives
the empty-id message and every occurrence after the first also receives the
duplicate-id message formatted with the empty id — the empty id is registered
like any other id. -/
theorem empty_id_duplicate_messages (sys : Sys) (o : Options)
    (hk : 2 ≤ o.Providers.countP (fun p => p.ID == "")) :
    (validateProviders sys o).count emptyIDMsg
        = o.Providers.countP (fun p => p.ID == "")
    ∧ (validateProviders sys o).count (dupIDMsg "")
        = o.Providers.countP (fun p => p.ID == "") - 1 :=
  ⟨count_empty_validateProviders sys o, count_dup_validateProviders sys o ""⟩

def optsBlank : Options := ⟨[blankProvider, blankProvider], false⟩

theorem empty_id_duplicate_messages_witness :
    (validateProviders sysNone optsBlank).count emptyIDMsg = 2
    ∧ (validateProviders sysNone optsBlank).count (dupIDMsg "") = 1 :=
  ⟨((empty_id_duplicate_messages sysNone optsBlank (by decide)).1).trans
      (by decide),
    ((empty_id_duplicate_messages sysNone optsBlank (by decide)).2).trans
      (by decide)⟩

/-! ### Claim theorems on the per-type validators -/

theorem count_eq_zero_ite_singleton {c : Prop} [Decidable c] {x a : String}
    (h : a ≠ x) : (if c then [x] else []).count a = 0 :=
  List.count_eq_zero.mpr (fun hm => h (mem_ite_singleton hm))

/-- C2: a "google" provider whose service-account path is set but fails the
existence probe gets exactly the credentials-file-not-found message when not
using application-default credentials, and the mutually-exclusive-settings
message instead (never both) when using them. -/
theorem google_cred_file_messages (sys : Sys) (p : Provider)
    (hpath : p.GoogleConfig.ServiceAccountJSON ≠ "")
    (hstat : sys.statOk p.GoogleConfig.ServiceAccountJSON = false) :
    (p.GoogleConfig.UseApplicationDefaultCredentials = false →
        (validateGoogleConfig sys p).count
            (credNotFoundMsg p.GoogleConfig.ServiceAccountJSON) = 1
        ∧ bothCredMsg ∉ validateGoogleConfig sys p)
    ∧ (p.GoogleConfig.UseApplicationDefaultCredentials = true →
        (validateGoogleConfig sys p).count bothCredMsg = 1
        ∧ credNotFoundMsg p.GoogleConfig.ServiceAccountJSON ∉
            validateGoogleConfig sys p) := by
  have hesc : ¬(¬(1 ≤ p.GoogleConfig.Groups.length)
      ∧ ¬(p.GoogleConfig.AdminEmail ≠ "")
      ∧ ¬(p.GoogleConfig.ServiceAccountJSON ≠ "")
      ∧ p.GoogleConfig.UseApplicationDefaultCredentials = false) :=
    fun h => h.2.2.1 hpath
  have hcred : (if ¬(p.GoogleConfig.ServiceAccountJSON ≠ "") then [missingCredMsg]
      else if sys.statOk p.GoogleConfig.ServiceAccountJSON = false
      then [credNotFoundMsg p.GoogleConfig.ServiceAccountJSON] else [])
      = [credNotFoundMsg p.GoogleConfig.ServiceAccountJSON] := by
    rw [if_neg (fun h => h hpath), if_pos hstat]
  refine ⟨fun hadc => ?_, fun hadc => ?_⟩
  · have hform : validateGoogleConfig sys p
        = (if ¬(1 ≤ p.GoogleConfig.Groups.length) then [missingGroupMsg] else [])
          ++ (if ¬(p.GoogleConfig.AdminEmail ≠ "")
              then [missingAdminEmailMsg] else [])
          ++ [credNotFoundMsg p.GoogleConfig.ServiceAccountJSON] := by
      simp only [validateGoogleConfig]
      rw [if_neg hesc, if_pos hadc, hcred]
    constructor
    · rw [hform, List.count_append, List.count_append,
        count_eq_zero_ite_singleton
          (credNotFoundMsg_ne _ missingGroupMsg (by decide)),
        count_eq_zero_ite_singleton
          (credNotFoundMsg_ne _ missingAdminEmailMsg (by decide))]
      simp [List.count_cons]
    · rw [hform]
      intro hm
      simp only [List.mem_append] at hm
      rcases hm with (h | h) | h
      · exact absurd (mem_ite_singleton h) (by decide)
      · exact absurd (mem_ite_singleton h) (by decide)
      · exact (credNotFoundMsg_ne _ bothCredMsg (by decide))
          (List.mem_singleton.mp h).symm
  · have hform : validateGoogleConfig sys p
        = (if ¬(1 ≤ p.GoogleConfig.Groups.length) then [missingGroupMsg] else [])
          ++ (if ¬(p.GoogleConfig.AdminEmail ≠ "")
              then [missingAdminEmailMsg] else [])
          ++ [bothCredMsg] := by
      simp only [validateGoogleConfig]
      rw [if_neg hesc, hadc]
      have hne : ¬((true : Bool) = false) := fun h => Bool.false_ne_true h.symm
      rw [if_neg hne, if_pos hpath]
    constructor
    · rw [hform, List.count_append, List.count_append,
        count_eq_zero_ite_singleton (show bothCredMsg ≠ missingGroupMsg by decide),
        count_eq_zero_ite_singleton
          (show bothCredMsg ≠ missingAdminEmailMsg by decide)]
      simp [List.count_cons]
    · rw [hform]
      intro hm
      simp only [List.mem_append] at hm
      rcases hm with (h | h) | h
      · exact (credNotFoundMsg_ne _ missingGroupMsg (by decide))
          (mem_ite_singleton h)
      · exact (credNotFoundMsg_ne _ missingAdminEmailMsg (by decide))
          (mem_ite_singleton h)
      · exact (credNotFoundMsg_ne _ bothCredMsg (by decide))
          (List.mem_singleton.mp h)

/-- A "google" provider with a service-account path that resolves to no file,
not using application-default credentials. -/
def googleSA : Provider where
  ID := "a"
  typ := "google"
  ClientID := "x"
  AuthenticationConfig := ⟨""⟩
  GoogleConfig := ⟨[], "", "/sa.json", false⟩
  MicrosoftEntraIDConfig := ⟨false⟩

/-- Same path, but with the application-default-credentials flag set. -/
def googleSAADC : Provider where
  ID := "a"
  typ := "google"
  ClientID := "x"
  AuthenticationConfig := ⟨""⟩
  GoogleConfig := ⟨[], "", "/sa.json", true⟩
  MicrosoftEntraIDConfig := ⟨false⟩

theorem google_cred_file_messages_witness :
    (validateGoogleConfig sysNone googleSA).count (credNotFoundMsg "/sa.json") = 1
    ∧ (validateGoogleConfig sysNone googleSAADC).count bothCredMsg = 1 :=
  ⟨((google_cred_file_messages sysNone googleSA (by decide) rfl).1 rfl).1,
   ((google_cred_file_messages sysNone googleSAADC (by decide) rfl).2 rfl).1⟩

/-- C4: the "google" extra settings are optional as a block — all four
empty/false yields no message at all; with only the group list set, the
admin-email and credential-strategy messages appear but no group message. -/
theorem google_optional_block (sys : Sys) (p : Provider)
    (hae : p.GoogleConfig.AdminEmail = "")
    (hsa : p.GoogleConfig.ServiceAccountJSON = "")
    (hadc : p.GoogleConfig.UseApplicationDefaultCredentials = false) :
    (p.GoogleConfig.Groups = [] → validateGoogleConfig sys p = [])
    ∧ (p.GoogleConfig.Groups ≠ [] →
        validateGoogleConfig sys p = [missingAdminEmailMsg, missingCredMsg]) := by
  refine ⟨fun hg => ?_, fun hg => ?_⟩
  · have hlen : ¬(1 ≤ p.GoogleConfig.Groups.length) := by rw [hg]; decide
    simp only [validateGoogleConfig]
    rw [if_pos ⟨hlen, fun h => h hae, fun h => h hsa, hadc⟩]
  · have hlen : 1 ≤ p.GoogleConfig.Groups.length := List.length_pos.mpr hg
    have hesc : ¬(¬(1 ≤ p.GoogleConfig.Groups.length)
        ∧ ¬(p.GoogleConfig.AdminEmail ≠ "")
        ∧ ¬(p.GoogleConfig.ServiceAccountJSON ≠ "")
        ∧ p.GoogleConfig.UseApplicationDefaultCredentials = false) :=
      fun h => h.1 hlen
    simp only [validateGoogleConfig]
    rw [if_neg hesc, if_neg (fun h => h hlen), if_pos (fun hne => hne hae),
      if_pos hadc, if_pos (fun hne => hne hsa)]
    rfl

/-- A "google" provider with only the group list configured. -/
def googleGroupsOnly : Provider where
  ID := "a"
  typ := "google"
  ClientID := "x"
  AuthenticationConfig := ⟨""⟩
  GoogleConfig := ⟨["g@x.com"], "", "", false⟩
  MicrosoftEntraIDConfig := ⟨false⟩

theorem google_optional_block_witness :
    validateGoogleConfig sysNone blankProvider = []
    ∧ validateGoogleConfig sysNone googleGroupsOnly
        = [missingAdminEmailMsg, missingCredMsg] :=
  ⟨(google_optional_block sysNone blankProvider rfl rfl rfl).1 rfl,
   (google_optional_block sysNone googleGroupsOnly rfl rfl rfl).2 (by decide)⟩

/-- C5: with federated token auth on and the environment variable empty, the
"entra-id" validator yields exactly the workload-identity hint and its output
does not depend on the file-read probe; with the variable set and the read
failing it yields the could-not-read message; with the flag off it yields
nothing.  A failed read is only ever a message: the validator is a total
function into message lists. -/
theorem entra_federated_token (sys : Sys) (p : Provider) :
    (p.MicrosoftEntraIDConfig.FederatedTokenAuth = true →
        sys.azureFederatedTokenFile = "" →
        validateEntraConfig sys p = [entraEnvMsg]
        ∧ ∀ sys' : Sys, sys'.azureFederatedTokenFile = "" →
            validateEntraConfig sys' p = validateEntraConfig sys p)
    ∧ (p.MicrosoftEntraIDConfig.FederatedTokenAuth = true →
        sys.azureFederatedTokenFile ≠ "" →
        sys.readOk sys.azureFederatedTokenFile = false →
        validateEntraConfig sys p = [entraReadMsg])
    ∧ (p.MicrosoftEntraIDConfig.FederatedTokenAuth = false →
        validateEntraConfig sys p = []) := by
  refine ⟨fun hf he => ⟨?_, fun sys' he' => ?_⟩, fun hf he hr => ?_, fun hf => ?_⟩
  · simp only [validateEntraConfig]
    rw [if_pos hf, if_pos he]
  · have h1 : validateEntraConfig sys p = [entraEnvMsg] := by
      simp only [validateEntraConfig]
      rw [if_pos hf, if_pos he]
    have h2 : validateEntraConfig sys' p = [entraEnvMsg] := by
      simp only [validateEntraConfig]
      rw [if_pos hf, if_pos he']
    rw [h1, h2]
  · simp only [validateEntraConfig]
    rw [if_pos hf, if_neg he, if_pos hr]
  · have hn : ¬(p.MicrosoftEntraIDConfig.FederatedTokenAuth = true) := by
      rw [hf]; exact fun h => Bool.false_ne_true h
    simp only [validateEntraConfig]
    rw [if_neg hn]

/-- An "entra-id" provider with federated token auth enabled. -/
def entraFed : Provider where
  ID := "a"
  typ := "entra-id"
  ClientID := "x"
  AuthenticationConfig := ⟨""⟩
  GoogleConfig := ⟨[], "", "", false⟩
  MicrosoftEntraIDConfig := ⟨true⟩

/-- A world where the federated-token variable points at an unreadable file. -/
def sysBadToken : Sys where
  statOk := fun _ => false
  readOk := fun _ => false
  azureFederatedTokenFile := "/var/run/secrets/token"

theorem entra_federated_token_witness :
    validateEntraConfig sysNone entraFed = [entraEnvMsg]
    ∧ validateEntraConfig sysBadToken entraFed = [entraReadMsg]
    ∧ validateEntraConfig sysNone blankProvider = [] :=
  ⟨((entra_federated_token sysNone entraFed).1 rfl rfl).1,
   (entra_federated_token sysBadToken entraFed).2.1 rfl (by decide) rfl,
   (entra_federated_token sysNone blankProvider).2.2 rfl⟩

/-- C6: the "login.gov" per-type validator emits the not-using-private-key-jwt
message exactly when the authentication method differs from private-key-JWT. -/
theorem govlogin_private_key_jwt (p : Provider) (ht : p.typ = "login.gov") :
    (p.AuthenticationConfig.Method ≠ PrivateKeyJWT →
        validateGovLoginConfig p = [govJwtMsg])
    ∧ (p.AuthenticationConfig.Method = PrivateKeyJWT →
        validateGovLoginConfig p = []) := by
  refine ⟨fun hm => ?_, fun hm => ?_⟩
  · unfold validateGovLoginConfig
    rw [if_pos ⟨ht, hm⟩]
  · have hn : ¬(p.typ = "login.gov"
        ∧ p.AuthenticationConfig.Method ≠ PrivateKeyJWT) := fun h => h.2 hm
    unfold validateGovLoginConfig
    rw [if_neg hn]

/-- A "login.gov" provider that does not use private-key-JWT. -/
def govProv : Provider where
  ID := "a"
  typ := "login.gov"
  ClientID := "x"
  AuthenticationConfig := ⟨""⟩
  GoogleConfig := ⟨[], "", "", false⟩
  MicrosoftEntraIDConfig := ⟨false⟩

/-- A "login.gov" provider using private-key-JWT. -/
def govProvJwt : Provider where
  ID := "a"
  typ := "login.gov"
  ClientID := "x"
  AuthenticationConfig := ⟨PrivateKeyJWT⟩
  GoogleConfig := ⟨[], "", "", false⟩
  MicrosoftEntraIDConfig := ⟨false⟩

theorem govlogin_private_key_jwt_witness :
    validateGovLoginConfig govProv = [govJwtMsg]
    ∧ validateGovLoginConfig govProvJwt = [] :=
  ⟨(govlogin_private_key_jwt govProv rfl).1 (by decide),
   (govlogin_private_key_jwt govProvJwt rfl).2 rfl⟩

/-- C3: the cross-cutting authentication-method validator (modelled from the
spec, see `validateAuthenticationConfig`) constrains the method only for the
"login.gov" type: any other method on that type yields its message, and every
other provider type yields nothing regardless of the method. -/
theorem authentication_config_rule (typ : String) (cfg : AuthenticationOptions) :
    (typ = "login.gov" → cfg.Method ≠ PrivateKeyJWT →
        validateAuthenticationConfig typ cfg = [govJwtMsg])
    ∧ (typ = "login.gov" → cfg.Method = PrivateKeyJWT →
        validateAuthenticationConfig typ cfg = [])
    ∧ (typ ≠ "login.gov" → validateAuthenticationConfig typ cfg = []) := by
  refine ⟨fun ht hm => ?_, fun ht hm => ?_, fun ht => ?_⟩
  · unfold validateAuthenticationConfig
    rw [if_pos ⟨ht, hm⟩]
  · have hn : ¬(typ = "login.gov" ∧ cfg.Method ≠ PrivateKeyJWT) :=
      fun h => h.2 hm
    unfold validateAuthenticationConfig
    rw [if_neg hn]
  · have hn : ¬(typ = "login.gov" ∧ cfg.Method ≠ PrivateKeyJWT) :=
      fun h => ht h.1
    unfold validateAuthenticationConfig
    rw [if_neg hn]

theorem authentication_config_rule_witness :
    validateAuthenticationConfig "login.gov" ⟨""⟩ = [govJwtMsg]
    ∧ validateAuthenticationConfig "login.gov" ⟨PrivateKeyJWT⟩ = []
    ∧ validateAuthenticationConfig "google" ⟨""⟩ = [] :=
  ⟨(authentication_config_rule "login.gov" ⟨""⟩).1 rfl (by decide),
   (authentication_config_rule "login.gov" ⟨PrivateKeyJWT⟩).2.1 rfl rfl,
   (authentication_config_rule "google" ⟨""⟩).2.2 (by decide)⟩

/-! ### Claim theorems on the aggregator -/

/-- One message block per provider, in traversal order, with the registry
threaded exactly as the loop threads it. -/
def providerMsgBlocks (sys : Sys) (providers : List Provider)
    (providerIDs : List String) : List (List String) :=
  match providers with
  | [] => []
  | p :: rest =>
      validateProviderMsgs sys p providerIDs
        :: providerMsgBlocks sys rest (p.ID :: providerIDs)

theorem validateProvidersLoop_eq_flatten (sys : Sys) (ps : List Provider) :
    ∀ ids : List String,
      validateProvidersLoop sys ps ids = (providerMsgBlocks sys ps ids).flatten := by
  induction ps with
  | nil => intro ids; rfl
  | cons p rest ih =>
    intro ids
    simp only [validateProvidersLoop, validateProvider, providerMsgBlocks,
      List.flatten_cons]
    rw [ih (p.ID :: ids)]

theorem providerMsgBlocks_length (sys : Sys) (ps : List Provider) :
    ∀ ids : List String, (providerMsgBlocks sys ps ids).length = ps.length := by
  induction ps with
  | nil => intro ids; rfl
  | cons p rest ih =>
    intro ids
    simp only [providerMsgBlocks, List.length_cons, ih (p.ID :: ids)]

/-- C7: the aggregator is a pure fold with no early exit: its output is the
two list-level messages followed by the concatenation, in sequence order, of
one message block per provider — every provider is visited (one block each,
even after earlier problems), and problems exist only as these accumulated
messages.  The provider list itself is untouched: the embedding is a pure
function of `Options`, matching the source, which never writes to it. -/
theorem aggregator_no_early_return (sys : Sys) (o : Options) :
    validateProviders sys o
      = (if o.Providers.length = 0 then [emptyProvidersMsg] else [])
        ++ (if o.SkipProviderButton = true ∧ 1 < o.Providers.length
            then [skipButtonMsg] else [])
        ++ (providerMsgBlocks sys o.Providers []).flatten
    ∧ (∀ ps ids, (providerMsgBlocks sys ps ids).length = ps.length)
    ∧ (∀ ps ids,
        validateProvidersLoop sys ps ids = (providerMsgBlocks sys ps ids).flatten) := by
  refine ⟨?_, providerMsgBlocks_length sys, validateProvidersLoop_eq_flatten sys⟩
  unfold validateProviders
  rw [validateProvidersLoop_eq_flatten sys o.Providers []]

/-- C8: an empty provider sequence yields exactly the empty-provider-list
message, and the per-provider loop contributes nothing. -/
theorem empty_provider_list (sys : Sys) (o : Options)
    (h : o.Providers = []) :
    validateProviders sys o = [emptyProvidersMsg]
    ∧ validateProvidersLoop sys o.Providers [] = [] := by
  constructor
  · unfold validateProviders
    rw [h]
    simp [validateProvidersLoop]
  · rw [h]
    rfl

theorem empty_provider_list_witness :
    validateProviders sysNone ⟨[], true⟩ = [emptyProvidersMsg] :=
  (empty_provider_list sysNone ⟨[], true⟩ rfl).1

/-- Nothing a single provider's validation emits is the skip-button message. -/
theorem skipButton_not_mem_validateProviderMsgs (sys : Sys) (p : Provider)
    (ids : List String) : skipButtonMsg ∉ validateProviderMsgs sys p ids := by
  intro hm
  unfold validateProviderMsgs at hm
  simp only [List.mem_append] at hm
  rcases hm with ((((((h | h) | h) | h) | h) | h) | h)
  · exact absurd (mem_ite_singleton h) (by decide)
  · exact (dupIDMsg_ne p.ID skipButtonMsg (by decide)) (mem_ite_singleton h).symm
  · exact absurd (mem_ite_singleton h) (by decide)
  · rcases take2_of_mem_subvalidators sys p _ (Or.inl h)
      with t | t | t | t | t | t <;> exact absurd t (by decide)
  · rcases take2_of_mem_subvalidators sys p _ (Or.inr (Or.inl (mem_ite_nil h)))
      with t | t | t | t | t | t <;> exact absurd t (by decide)
  · rcases take2_of_mem_subvalidators sys p _
        (Or.inr (Or.inr (Or.inl (mem_ite_nil h))))
      with t | t | t | t | t | t <;> exact absurd t (by decide)
  · rcases take2_of_mem_subvalidators sys p _
        (Or.inr (Or.inr (Or.inr (mem_ite_nil h))))
      with t | t | t | t | t | t <;> exact absurd t (by decide)

theorem skipButton_not_mem_validateProvidersLoop (sys : Sys) (ps : List Provider) :
    ∀ ids : List String, skipButtonMsg ∉ validateProvidersLoop sys ps ids := by
  induction ps with
  | nil => intro ids hm; simp [validateProvidersLoop] at hm
  | cons p rest ih =>
    intro ids hm
    simp only [validateProvidersLoop, validateProvider, List.mem_append] at hm
    rcases hm with h | h
    · exact skipButton_not_mem_validateProviderMsgs sys p ids h
    · exact ih (p.ID :: ids) h

/-- C9: with the skip-provider-button flag set, the mutual-exclusivity
message appears whenever more than one provider is configured — however
valid the providers are — and never appears with at most one provider. -/
theorem skip_provider_button (sys : Sys) (o : Options)
    (hskip : o.SkipProviderButton = true) :
    (1 < o.Providers.length → skipButtonMsg ∈ validateProviders sys o)
    ∧ (o.Providers.length ≤ 1 → skipButtonMsg ∉ validateProviders sys o) := by
  constructor
  · intro hlen
    unfold validateProviders
    refine List.mem_append.mpr (Or.inl (List.mem_append.mpr (Or.inr ?_)))
    rw [if_pos ⟨hskip, hlen⟩]
    exact List.mem_singleton.mpr rfl
  · intro hlen hm
    unfold validateProviders at hm
    simp only [List.mem_append] at hm
    rcases hm with (h | h) | h
    · exact absurd (mem_ite_singleton h) (by decide)
    · have hc : ¬(o.SkipProviderButton = true ∧ 1 < o.Providers.length) :=
        fun hcc => absurd hcc.2 (Nat.not_lt.mpr hlen)
      rw [if_neg hc] at h
      simp at h
    · exact skipButton_not_mem_validateProvidersLoop sys o.Providers [] h

theorem skip_provider_button_witness :
    skipButtonMsg ∈ validateProviders sysNone ⟨[provA, blankProvider], true⟩
    ∧ skipButtonMsg ∉ validateProviders sysNone ⟨[provA], true⟩ :=
  ⟨(skip_provider_button sysNone ⟨[provA, blankProvider], true⟩ rfl).1 (by decide),
   (skip_provider_button sysNone ⟨[provA], true⟩ rfl).2 (by decide)⟩

end OAuth2Proxy
